import Mathlib

/-!
Verification development for the httpx request dispatch pipeline.

The definitions below are a shallow embedding of the redirect resolution
engine of src/httpx/middleware.py (class Redirect) and of the HTTP/2 mock
multiplexer of src/tests/dispatch/utils.py (class MockHTTP2Server).

The URL / Headers / Cookies / Response classes live in httpx/models.py,
which is not part of the visible sources; those pieces are modelled from
the specification (spec.md sections 3 and 6), and each such definition is
marked in its doc comment.
-/

namespace Httpx

/-- Modelled from the spec: a URL is the tuple (scheme, host, port, path,
query, fragment); httpx/models.py (class URL) is not among the visible
sources.  An empty fragment or query stands for an absent one, matching
Python string truthiness. -/
structure URL where
  scheme : String
  host : String
  port : Nat
  path : String
  query : String
  fragment : String
deriving DecidableEq, Repr

/-- Modelled from the spec: a URL literal parsed with allow_relative is a
relative reference when it carries no scheme and no host. -/
def URL.is_relative_url (u : URL) : Bool :=
  u.scheme = "" && u.host = ""

/-- Modelled from the spec: the origin is the (scheme, host, port) triple
identifying a security boundary (spec glossary). -/
def URL.origin (u : URL) : String × String × Nat :=
  (u.scheme, u.host, u.port)

/-- Modelled from the spec: resolving a relative reference against a base
URL keeps the base origin and takes path, query and fragment from the
reference; an absolute reference is returned unchanged.  This models
request.url.join(url) for the absolute-path references the engine uses. -/
def URL.join (base u : URL) : URL :=
  if u.is_relative_url then
    { u with scheme := base.scheme, host := base.host, port := base.port }
  else
    u

/-- Modelled from the spec: url.copy_with(fragment=f) replaces only the
fragment component. -/
def URL.copy_with_fragment (u : URL) (f : String) : URL :=
  { u with fragment := f }

/-- Request model: method, URL, headers (ordered list of name/value pairs),
body content, whether the body is a one-shot lazy stream, and cookies.
The concrete fields follow spec section 3 (httpx/models.py AsyncRequest is
not among the visible sources). -/
structure Request where
  method : String
  url : URL
  headers : List (String × String)
  content : String
  is_streaming : Bool
  cookies : List (String × String)
deriving DecidableEq, Repr

/-- Response model: status code, headers, the parsed Location header value
when one is present (URL parsing is an external collaborator per spec
section 1, so the Location value is carried already parsed), and the URL of
the request that produced the response (response.url). -/
structure Response where
  status_code : Nat
  headers : List (String × String)
  location : Option URL
  url : URL
deriving DecidableEq, Repr

/-- Status codes used by the redirect engine (httpx/status_codes.py). -/
def codes.MOVED_PERMANENTLY : Nat := 301

/-- Status code 302. -/
def codes.FOUND : Nat := 302

/-- Status code 303. -/
def codes.SEE_OTHER : Nat := 303

/-- Status code 200. -/
def codes.OK : Nat := 200

/-- Modelled from the spec: exactly the status codes 301, 302, 303, 307,
308 carrying a Location header are treated as is-redirect (spec section 6,
Redirect status classification); httpx/models.py is not among the visible
sources. -/
def Response.is_redirect (r : Response) : Bool :=
  (r.status_code = 301 || r.status_code = 302 || r.status_code = 303
    || r.status_code = 307 || r.status_code = 308) && r.location.isSome

/-- What a responder (the wrapped get_response callable) yields for one
request: the parts of the response the server controls.  The engine itself
attaches response.url and the history. -/
structure ServerReply where
  status_code : Nat
  headers : List (String × String)
  location : Option URL
deriving DecidableEq, Repr

/-- Responder: the get_response argument of Redirect.dispatch. -/
def Responder : Type := Request → ServerReply

/-- The three typed errors the redirect engine raises
(httpx/exceptions.py). -/
inductive RedirectError where
  | tooManyRedirects
  | redirectLoop
  | redirectBodyUnavailable
deriving DecidableEq, Repr

/-- Configuration of one Redirect middleware instance: the constructor
arguments of class Redirect in httpx/middleware.py. -/
structure RedirectConfig where
  allow_redirects : Bool
  max_redirects : Nat
  cookies : List (String × String)
deriving DecidableEq, Repr

/-- Embedding of Redirect.redirect_method (httpx/middleware.py lines
103-124): the sequence of three conditional rewrites of the method. -/
def redirect_method (request : Request) (response : Response) : String :=
  let method := request.method
  let method := if response.status_code = codes.SEE_OTHER && method ≠ "HEAD"
    then "GET" else method
  let method := if response.status_code = codes.FOUND && method ≠ "HEAD"
    then "GET" else method
  let method := if response.status_code = codes.MOVED_PERMANENTLY && method = "POST"
    then "GET" else method
  method

/-- Embedding of Redirect.redirect_url (httpx/middleware.py lines 126-143):
take the Location value, resolve a relative reference against the current
request URL, and carry the request fragment forward when the new URL has
none.  The none branch is unreachable: the engine only rewrites responses
for which is_redirect holds, which requires a Location value. -/
def redirect_url (request : Request) (response : Response) : URL :=
  match response.location with
  | none => request.url
  | some location =>
    let url := if location.is_relative_url then request.url.join location else location
    if request.url.fragment ≠ "" && url.fragment = "" then
      url.copy_with_fragment request.url.fragment
    else
      url

/-- ASCII lowercasing of a header name, character by character. -/
def lowerName (s : String) : String :=
  String.mk (s.data.map Char.toLower)

/-- Modelled from the spec: deleting a header removes every entry whose
name matches case-insensitively (Headers in httpx/models.py is not among
the visible sources; header keys are case-insensitive per spec section 3). -/
def headersDelete (headers : List (String × String)) (key : String) :
    List (String × String) :=
  headers.filter (fun kv => lowerName kv.1 ≠ lowerName key)

/-- Embedding of Redirect.redirect_headers (httpx/middleware.py lines
145-154): copy the request headers and, when the target origin differs
from the request origin, delete Authorization and host. -/
def redirect_headers (request : Request) (url : URL) : List (String × String) :=
  let headers := request.headers
  if url.origin ≠ request.url.origin then
    headersDelete (headersDelete headers "Authorization") "host"
  else
    headers

/-- Embedding of Redirect.redirect_content (httpx/middleware.py lines
156-164): drop the body when the method was rewritten to GET, fail when a
one-shot stream would have to be replayed, otherwise keep the body. -/
def redirect_content (request : Request) (method : String) :
    Except RedirectError String :=
  if method ≠ request.method && method = "GET" then
    Except.ok ""
  else if request.is_streaming then
    Except.error RedirectError.redirectBodyUnavailable
  else
    Except.ok request.content

/-- Modelled from the spec: cookie merge starts from the seed set and lets
the request cookies take precedence on conflict (spec section 4.2, Cookies
rule; Cookies in httpx/models.py is not among the visible sources). -/
def cookiesUpdate (base upd : List (String × String)) :
    List (String × String) :=
  base.filter (fun kv => ¬ upd.any (fun kv2 => kv2.1 = kv.1)) ++ upd

/-- Embedding of Redirect.build_redirect_request (httpx/middleware.py lines
90-101): assemble the rewritten request from the rewrite rules.  The
rewritten request carries a materialized body, hence is_streaming false. -/
def build_redirect_request (cfg : RedirectConfig) (request : Request)
    (response : Response) : Except RedirectError Request :=
  let method := redirect_method request response
  let url := redirect_url request response
  let headers := redirect_headers request url
  match redirect_content request method with
  | Except.error e => Except.error e
  | Except.ok content =>
    Except.ok
      { method := method
        url := url
        headers := headers
        content := content
        is_streaming := false
        cookies := cookiesUpdate cfg.cookies request.cookies }

/-- Result of one call of Redirect.dispatch that returns normally: the
response, the history attached to it (response.history), and, in lazy
mode on a redirect, the captured continuation response.next, represented
by the rewritten request together with the engine history it will resume
with. -/
structure DispatchResult where
  response : Response
  history : List Response
  next : Option (Request × List Response)
deriving DecidableEq, Repr

/-- Embedding of Redirect.dispatch (httpx/middleware.py lines 67-88).
The engine state self.history is passed explicitly; the recursion of the
eager branch terminates because the too-many-redirects guard bounds the
history length. -/
def dispatch (cfg : RedirectConfig) (get_response : Responder)
    (history : List Response) (request : Request) :
    Except RedirectError DispatchResult :=
  if h : cfg.max_redirects < history.length then
    Except.error RedirectError.tooManyRedirects
  else if request.url ∈ history.map Response.url then
    Except.error RedirectError.redirectLoop
  else
    let reply := get_response request
    let response : Response :=
      { status_code := reply.status_code
        headers := reply.headers
        location := reply.location
        url := request.url }
    if response.is_redirect = false then
      Except.ok { response := response, history := history, next := none }
    else
      match build_redirect_request cfg request response with
      | Except.error e => Except.error e
      | Except.ok next_request =>
        if cfg.allow_redirects then
          dispatch cfg get_response (history ++ [response]) next_request
        else
          Except.ok
            { response := response
              history := history
              next := some (next_request, history ++ [response]) }
termination_by cfg.max_redirects + 1 - history.length
decreasing_by
  simp at h
  simp
  omega

/-- Instrumented variant of dispatch that additionally returns the trace of
responder invocations: the list of (request, response) pairs, oldest first,
for which get_response was actually called during this dispatch.  The first
component coincides with dispatch (lemma dispatchT_fst). -/
def dispatchT (cfg : RedirectConfig) (get_response : Responder)
    (history : List Response) (request : Request) :
    Except RedirectError DispatchResult × List (Request × Response) :=
  if h : cfg.max_redirects < history.length then
    (Except.error RedirectError.tooManyRedirects, [])
  else if request.url ∈ history.map Response.url then
    (Except.error RedirectError.redirectLoop, [])
  else
    let reply := get_response request
    let response : Response :=
      { status_code := reply.status_code
        headers := reply.headers
        location := reply.location
        url := request.url }
    if response.is_redirect = false then
      (Except.ok { response := response, history := history, next := none },
        [(request, response)])
    else
      match build_redirect_request cfg request response with
      | Except.error e => (Except.error e, [(request, response)])
      | Except.ok next_request =>
        if cfg.allow_redirects then
          let rest := dispatchT cfg get_response (history ++ [response]) next_request
          (rest.1, (request, response) :: rest.2)
        else
          (Except.ok
            { response := response
              history := history
              next := some (next_request, history ++ [response]) },
            [(request, response)])
termination_by cfg.max_redirects + 1 - history.length
decreasing_by
  simp at h
  simp
  omega

/-- Driver for lazy mode: repeatedly invoke the captured continuation
(response.next) while one is present, as the manual-stepping callers in
the tests do, with an explicit bound on the number of invocations. -/
def driveLazy (cfg : RedirectConfig) (get_response : Responder) :
    Nat → Except RedirectError DispatchResult → Except RedirectError DispatchResult
  | 0, r => r
  | _ + 1, Except.error e => Except.error e
  | n + 1, Except.ok r =>
    match r.next with
    | none => Except.ok r
    | some (req, hist) =>
      driveLazy cfg get_response n (dispatch cfg get_response hist req)

/-! Redirect chain test family: a responder that drives the request along
the distinct URLs u 0, u 1, ..., u k, answering u i with a redirect of
status s to u (i+1) for i < k and u k with a plain 200. -/

def chainResponder (u : Nat → URL) (s k : Nat) : Responder := fun req =>
  match (List.range k).find? (fun i => u i == req.url) with
  | some i => ⟨s, [], some (u (i + 1))⟩
  | none => ⟨200, [], none⟩

def chainResp (u : Nat → URL) (s i : Nat) : Response :=
  ⟨s, [], some (u (i + 1)), u i⟩

def chainHist (u : Nat → URL) (s j : Nat) : List Response :=
  (List.range j).map (chainResp u s)

/-! Redirect loop test family: two distinct URLs that redirect to each
other, so the third hop revisits the first URL, which is in the history
but is not the immediately preceding URL. -/

def mkReq (u : URL) : Request :=
  ⟨"GET", u, [], "", false, []⟩

def looperResponder (a b : URL) (s : Nat) : Responder := fun req =>
  if req.url = a then ⟨s, [], some b⟩
  else if req.url = b then ⟨s, [], some a⟩
  else ⟨200, [], none⟩

/-! Fragment scenario family (tests/client/test_redirects.py,
test_fragment_redirect): a relative 303 redirect from a URL carrying a
fragment. -/

/-- The relative reference "/" used as Location value. -/
def relRoot : URL :=
  ⟨"", "", 0, "/", "", ""⟩

/-- The URL https://example.org/relative_redirect#fragment. -/
def fragUrl : URL :=
  ⟨"https", "example.org", 443, "/relative_redirect", "", "fragment"⟩

/-- Responder of the fragment scenario: 303 with Location "/" on the
relative_redirect path, 200 otherwise (MockDispatch in the tests). -/
def fragResponder : Responder := fun req =>
  if req.url.path = "/relative_redirect" then ⟨303, [], some relRoot⟩
  else ⟨200, [], none⟩

/-- The GET request of the fragment scenario. -/
def fragReq : Request :=
  ⟨"GET", fragUrl, [], "", false, []⟩

/-! Embedding of the mock HTTP/2 multiplexer of
src/tests/dispatch/utils.py (class MockHTTP2Server): the stream
correlation table self.requests and the event handlers. -/

/-- One in-progress exchange record: the headers received at request start
and the accumulated body bytes (the dict values stored in
MockHTTP2Server.requests). -/
structure ExchangeRecord where
  headers : List (String × String)
  data : String
deriving DecidableEq, Repr

/-- State of the mock HTTP/2 server: the stream correlation table
self.requests (stream id to pending exchange records, oldest first) and
the log of requests dispatched to the application handler, in dispatch
order.  The table is a function because the code only ever accesses it by
stream id. -/
structure ServerState where
  requests : Nat → Option (List ExchangeRecord)
  dispatched : List (Nat × ExchangeRecord)

/-- The empty table of a fresh MockHTTP2Server. -/
def ServerState.init : ServerState :=
  ⟨fun _ => none, []⟩

/-- Table update self.requests[sid] = l. -/
def setStream (s : ServerState) (sid : Nat) (l : List ExchangeRecord) :
    ServerState :=
  { s with requests := fun x => if x = sid then some l else s.requests x }

/-- Table removal del self.requests[sid]. -/
def removeStream (s : ServerState) (sid : Nat) : ServerState :=
  { s with requests := fun x => if x = sid then none else s.requests x }

/-- Embedding of MockHTTP2Server.request_received (utils.py lines 72-78):
create the entry when absent, then append a fresh record with empty body. -/
def request_received (headers : List (String × String)) (sid : Nat)
    (s : ServerState) : ServerState :=
  match s.requests sid with
  | none => setStream s sid [⟨headers, ""⟩]
  | some l => setStream s sid (l ++ [⟨headers, ""⟩])

/-- Appending data bytes to the newest record, requests[sid][-1]. -/
def appendToLast (l : List ExchangeRecord) (data : String) :
    List ExchangeRecord :=
  match l with
  | [] => []
  | [r] => [⟨r.headers, r.data ++ data⟩]
  | r :: rest => r :: appendToLast rest data

/-- Embedding of MockHTTP2Server.receive_data (utils.py lines 80-84):
append the payload to the newest record for the stream; a data frame for
an unknown stream id raises (KeyError), modelled as none. -/
def receive_data (data : String) (sid : Nat) (s : ServerState) :
    Option ServerState :=
  match s.requests sid with
  | none => none
  | some [] => none
  | some (r :: rest) => some (setStream s sid (appendToLast (r :: rest) data))

/-- Embedding of MockHTTP2Server.stream_complete (utils.py lines 86-115):
pop the oldest pending record, drop the table entry when it empties, and
dispatch the reconstructed request to the application exactly once
(modelled as appending to the dispatched log). -/
def stream_complete (sid : Nat) (s : ServerState) : Option ServerState :=
  match s.requests sid with
  | none => none
  | some [] => none
  | some (r :: rest) =>
    let s1 := if rest.isEmpty then removeStream s sid else setStream s sid rest
    some { s1 with dispatched := s1.dispatched ++ [(sid, r)] }

/-- The three codec events handled by MockHTTP2Server.write (utils.py
lines 52-62). -/
inductive H2Event where
  | requestReceived (headers : List (String × String)) (streamId : Nat)
  | dataReceived (data : String) (streamId : Nat)
  | streamEnded (streamId : Nat)

/-- Event handling of MockHTTP2Server.write for a single codec event. -/
def handleEvent (s : ServerState) (e : H2Event) : Option ServerState :=
  match e with
  | H2Event.requestReceived headers sid => some (request_received headers sid s)
  | H2Event.dataReceived data sid => receive_data data sid s
  | H2Event.streamEnded sid => stream_complete sid s

/-- Folding a sequence of codec events through the server state. -/
def runEvents (events : List H2Event) (s : ServerState) : Option ServerState :=
  match events with
  | [] => some s
  | e :: rest =>
    match handleEvent s e with
    | none => none
    | some s2 => runEvents rest s2

/-! Concrete inputs used by the witnesses below. -/

/-- Chain of URLs https://example.org/r0, /r1, /r2, ... -/
def uW : Nat → URL := fun n =>
  ⟨"https", "example.org", 443, "/r" ++ toString n, "", ""⟩

/-- Responder that always answers 200 without Location. -/
def gOK : Responder := fun _ =>
  ⟨200, [], none⟩

/-- URL https://example.org/a. -/
def uA : URL :=
  ⟨"https", "example.org", 443, "/a", "", ""⟩

/-- URL https://example.org/b. -/
def uB : URL :=
  ⟨"https", "example.org", 443, "/b", "", ""⟩

/-- Responder that always answers 303 with Location uB. -/
def gNext : Responder := fun _ =>
  ⟨303, [], some uB⟩

/-! Helper lemmas about the engine. -/

/-- The instrumented dispatch agrees with dispatch on the result. -/
theorem dispatchT_fst (cfg : RedirectConfig) (g : Responder) :
    ∀ (history : List Response) (request : Request),
    (dispatchT cfg g history request).1 = dispatch cfg g history request := by
  intro history request
  induction history, request using dispatchT.induct cfg g with
  | case1 hist req h1 =>
    rw [dispatchT, dispatch]
    simp [h1]
  | case2 hist req h1 h2 =>
    rw [dispatchT, dispatch]
    simp [h1, h2]
  | case3 hist req h1 h2 reply response hred =>
    rw [dispatchT, dispatch]
    simp only [h1, h2]
    simp_all
  | case4 hist req h1 h2 reply response hred e hb =>
    rw [dispatchT, dispatch]
    simp only [h1, h2]
    simp_all
  | case5 hist req h1 h2 reply response hred nr hb ha ih =>
    rw [dispatchT, dispatch]
    simp only [h1, h2]
    simp_all
  | case6 hist req h1 h2 reply response hred nr hb ha =>
    rw [dispatchT, dispatch]
    simp only [h1, h2]
    simp_all

/-- When the hop ceiling is already exceeded, dispatch fails immediately and
the responder is not called at all. -/
theorem dispatchT_guard_limit (cfg : RedirectConfig) (g : Responder)
    (history : List Response) (request : Request)
    (h : cfg.max_redirects < history.length) :
    dispatchT cfg g history request =
      (Except.error RedirectError.tooManyRedirects, []) := by
  rw [dispatchT]
  simp [h]

/-- When the request URL was already visited, dispatch fails immediately and
the responder is not called at all. -/
theorem dispatchT_guard_loop (cfg : RedirectConfig) (g : Responder)
    (history : List Response) (request : Request)
    (h1 : ¬ cfg.max_redirects < history.length)
    (h2 : request.url ∈ history.map Response.url) :
    dispatchT cfg g history request =
      (Except.error RedirectError.redirectLoop, []) := by
  rw [dispatchT]
  simp [h1, h2]

/-- Snapshot invariant: a returned response carries as history the engine
history at entry extended by every redirect response received during the
call, which are all received responses except the returned one; the
returned response is the last response received. -/
theorem dispatchT_ok_history (cfg : RedirectConfig) (g : Responder) :
    ∀ (history : List Response) (request : Request)
      (res : DispatchResult) (tr : List (Request × Response)),
    dispatchT cfg g history request = (Except.ok res, tr) →
    res.history = history ++ (tr.map Prod.snd).dropLast ∧
    (tr.map Prod.snd).getLast? = some res.response := by
  intro history request
  induction history, request using dispatchT.induct cfg g with
  | case1 hist req h1 =>
    intro res tr heq
    rw [dispatchT] at heq
    simp [h1] at heq
  | case2 hist req h1 h2 =>
    intro res tr heq
    rw [dispatchT] at heq
    simp [h1, h2] at heq
  | case3 hist req h1 h2 reply response hred =>
    intro res tr heq
    rw [dispatchT] at heq
    simp only [h1, h2] at heq
    simp_all
    obtain ⟨h4, h5⟩ := heq
    subst h4
    subst h5
    refine ⟨by simp, ⟨req, by simp⟩⟩
  | case4 hist req h1 h2 reply response hred e hb =>
    intro res tr heq
    rw [dispatchT] at heq
    simp only [h1, h2] at heq
    simp_all
  | case5 hist req h1 h2 reply response hred nr hb ha ih =>
    intro res tr heq
    rw [dispatchT] at heq
    simp only [h1, h2] at heq
    simp_all
    obtain ⟨h4, h5⟩ := heq
    have h4a : (dispatchT cfg g (hist ++ [response]) nr).1 = Except.ok res := h4
    have h5a : (req, response) :: (dispatchT cfg g (hist ++ [response]) nr).2 = tr := h5
    have hpair : dispatchT cfg g (hist ++ [response]) nr =
        (Except.ok res, (dispatchT cfg g (hist ++ [response]) nr).2) :=
      Prod.ext h4a rfl
    obtain ⟨ihl, ihr⟩ := ih res _ hpair
    obtain ⟨a, hga⟩ := ihr
    subst h5a
    cases htr2 : (dispatchT cfg g (hist ++ [response]) nr).2 with
    | nil =>
      rw [htr2] at hga
      simp at hga
    | cons b l =>
      rw [htr2] at ihl hga
      constructor
      · rw [ihl]
        simp
      · refine ⟨a, ?_⟩
        rw [List.getLast?_cons_cons]
        exact hga
  | case6 hist req h1 h2 reply response hred nr hb ha =>
    intro res tr heq
    rw [dispatchT] at heq
    simp only [h1, h2] at heq
    simp_all
    obtain ⟨h4, h5⟩ := heq
    subst h4
    subst h5
    refine ⟨by simp, ⟨req, by simp⟩⟩

/-- The rewritten request does not depend on the allow_redirects flag. -/
theorem build_redirect_request_mode (cfg : RedirectConfig) (b : Bool)
    (request : Request) (response : Response) :
    build_redirect_request { cfg with allow_redirects := b } request response =
      build_redirect_request cfg request response := rfl

/-- Stepping the lazy continuation enough times yields exactly the eager
result, from any engine state. -/
theorem driveLazy_eq_eager (cfg : RedirectConfig) (g : Responder) :
    ∀ (fuel : Nat) (history : List Response) (request : Request),
    cfg.max_redirects + 2 ≤ fuel + history.length →
    driveLazy { cfg with allow_redirects := false } g fuel
      (dispatch { cfg with allow_redirects := false } g history request) =
    dispatch { cfg with allow_redirects := true } g history request := by
  intro fuel
  induction fuel with
  | zero =>
    intro hist req hfuel
    have hlim : cfg.max_redirects < hist.length := by
      simp at hfuel
      omega
    rw [dispatch, dispatch]
    simp [hlim, driveLazy]
  | succ n ih =>
    intro hist req hfuel
    rw [dispatch, dispatch]
    by_cases hlim : cfg.max_redirects < hist.length
    · simp only [RedirectConfig.max_redirects] at hlim ⊢
      simp [hlim, driveLazy]
    · simp only [dif_neg hlim]
      by_cases hloop : req.url ∈ hist.map Response.url
      · simp [hloop, driveLazy]
      · simp only [if_neg hloop]
        by_cases hred :
            (⟨(g req).status_code, (g req).headers, (g req).location, req.url⟩ :
              Response).is_redirect = false
        · simp only [if_pos hred, driveLazy]
        · simp only [if_neg hred]
          simp only [build_redirect_request_mode]
          cases hb : build_redirect_request cfg req
              ⟨(g req).status_code, (g req).headers, (g req).location, req.url⟩ with
          | error e => simp [driveLazy, hb]
          | ok nr =>
            simp only [hb]
            simp only [driveLazy]
            exact ih (hist ++ [⟨(g req).status_code, (g req).headers, (g req).location, req.url⟩])
              nr (by simp; omega)

theorem find_range_self (u : Nat → URL) (k : Nat)
    (hinj : ∀ i, i ≤ k → ∀ i2, i2 ≤ k → i ≠ i2 → u i ≠ u i2) :
    ∀ j, j < k → (List.range k).find? (fun i => u i == u j) = some j := by
  induction k with
  | zero => intro j hj; omega
  | succ k ih =>
    intro j hj
    rw [List.range_succ, List.find?_append]
    by_cases hjk : j < k
    · have hinj2 : ∀ i, i ≤ k → ∀ i2, i2 ≤ k → i ≠ i2 → u i ≠ u i2 := by
        intro i hi i2 hi2 hne
        exact hinj i (by omega) i2 (by omega) hne
      rw [ih hinj2 j hjk]
      rfl
    · have hjk2 : j = k := by omega
      subst hjk2
      have hnone : (List.range j).find? (fun i => u i == u j) = none := by
        rw [List.find?_eq_none]
        intro x hx
        rw [List.mem_range] at hx
        simp only [beq_iff_eq]
        exact hinj x (by omega) j (by omega) (by omega)
      rw [hnone]
      simp [List.find?_cons_of_pos]

theorem find_range_top (u : Nat → URL) (k : Nat)
    (hinj : ∀ i, i ≤ k → ∀ i2, i2 ≤ k → i ≠ i2 → u i ≠ u i2) :
    (List.range k).find? (fun i => u i == u k) = none := by
  rw [List.find?_eq_none]
  intro x hx
  rw [List.mem_range] at hx
  simp only [beq_iff_eq]
  exact hinj x (by omega) k (by omega) (by omega)

theorem redirect_method_get (req : Request) (resp : Response)
    (hm : req.method = "GET") : redirect_method req resp = "GET" := by
  simp [redirect_method, hm]

theorem is_redirect_of_code (s : Nat) (hd : List (String × String)) (v : URL)
    (u0 : URL) (hs : s = 301 ∨ s = 302 ∨ s = 303 ∨ s = 307 ∨ s = 308) :
    (⟨s, hd, some v, u0⟩ : Response).is_redirect = true := by
  rcases hs with rfl | rfl | rfl | rfl | rfl <;> simp [Response.is_redirect]

theorem build_chain (cfg : RedirectConfig) (req : Request) (resp : Response)
    (v : URL) (hm : req.method = "GET") (hstr : req.is_streaming = false)
    (hloc : resp.location = some v) (hv : v.is_relative_url = false)
    (hfrag : req.url.fragment = "") :
    build_redirect_request cfg req resp =
      Except.ok ⟨"GET", v, redirect_headers req v, req.content, false,
        cookiesUpdate cfg.cookies req.cookies⟩ := by
  have hmeth := redirect_method_get req resp hm
  have hurlv : redirect_url req resp = v := by
    simp [redirect_url, hloc, hv, hfrag]
  simp [build_redirect_request, hmeth, hurlv, redirect_content, hm, hstr]

theorem chainHist_succ (u : Nat → URL) (s j : Nat) :
    chainHist u s j ++ [chainResp u s j] = chainHist u s (j + 1) := by
  simp [chainHist, List.range_succ]

theorem chain_step (cfg : RedirectConfig) (u : Nat → URL) (s k : Nat)
    (ha : cfg.allow_redirects = true)
    (hs : s = 301 ∨ s = 302 ∨ s = 303 ∨ s = 307 ∨ s = 308)
    (hinj : ∀ i, i ≤ k → ∀ i2, i2 ≤ k → i ≠ i2 → u i ≠ u i2)
    (hurl : ∀ i, i ≤ k → (u i).is_relative_url = false ∧ (u i).fragment = "")
    (j : Nat) (req : Request) (hjk : j < k) (hjm : j ≤ cfg.max_redirects)
    (hru : req.url = u j) (hm : req.method = "GET")
    (hstr : req.is_streaming = false) :
    dispatch cfg (chainResponder u s k) (chainHist u s j) req =
      dispatch cfg (chainResponder u s k) (chainHist u s (j + 1))
        ⟨"GET", u (j + 1), redirect_headers req (u (j + 1)), req.content, false,
          cookiesUpdate cfg.cookies req.cookies⟩ := by
  have hlen : (chainHist u s j).length = j := by simp [chainHist]
  have hlim : ¬ cfg.max_redirects < (chainHist u s j).length := by
    rw [hlen]; omega
  have hloop : ¬ req.url ∈ (chainHist u s j).map Response.url := by
    rw [hru]
    simp only [chainHist, List.map_map, List.mem_map]
    rintro ⟨x, hx, hux⟩
    rw [List.mem_range] at hx
    exact hinj x (by omega) j (by omega) (by omega) hux
  have hresp : chainResponder u s k req = ⟨s, [], some (u (j + 1))⟩ := by
    simp only [chainResponder, hru]
    rw [find_range_self u k hinj j hjk]
  have hred : (⟨s, [], some (u (j + 1)), req.url⟩ : Response).is_redirect = true :=
    is_redirect_of_code s [] (u (j + 1)) req.url hs
  have hbuild := build_chain cfg req ⟨s, [], some (u (j + 1)), req.url⟩ (u (j + 1))
    hm hstr rfl (hurl (j + 1) (by omega)).1 (by rw [hru]; exact (hurl j (by omega)).2)
  conv_lhs => rw [dispatch]
  simp only [dif_neg hlim, if_neg hloop, hresp, hred, hbuild, ha, if_true]
  rw [if_neg (by simp)]
  have hlist : chainHist u s j ++ [⟨s, [], some (u (j + 1)), req.url⟩] =
      chainHist u s (j + 1) := by
    rw [hru]
    exact chainHist_succ u s j
  rw [hlist]

theorem chain_ok (cfg : RedirectConfig) (u : Nat → URL) (s k : Nat)
    (ha : cfg.allow_redirects = true)
    (hs : s = 301 ∨ s = 302 ∨ s = 303 ∨ s = 307 ∨ s = 308)
    (hinj : ∀ i, i ≤ k → ∀ i2, i2 ≤ k → i ≠ i2 → u i ≠ u i2)
    (hurl : ∀ i, i ≤ k → (u i).is_relative_url = false ∧ (u i).fragment = "")
    (hk : k ≤ cfg.max_redirects) :
    ∀ (n j : Nat) (req : Request), j + n = k → req.url = u j →
      req.method = "GET" → req.is_streaming = false →
      dispatch cfg (chainResponder u s k) (chainHist u s j) req =
        Except.ok ⟨⟨200, [], none, u k⟩, chainHist u s k, none⟩ := by
  intro n
  induction n with
  | zero =>
    intro j req hjn hru hm hstr
    have hj : j = k := by omega
    subst hj
    have hlen : (chainHist u s j).length = j := by simp [chainHist]
    have hlim : ¬ cfg.max_redirects < (chainHist u s j).length := by
      rw [hlen]; omega
    have hloop : ¬ req.url ∈ (chainHist u s j).map Response.url := by
      rw [hru]
      simp only [chainHist, List.map_map, List.mem_map]
      rintro ⟨x, hx, hux⟩
      rw [List.mem_range] at hx
      exact hinj x (by omega) j (by omega) (by omega) hux
    have hresp : chainResponder u s j req = ⟨200, [], none⟩ := by
      simp only [chainResponder, hru]
      rw [find_range_top u j hinj]
    rw [dispatch]
    simp only [dif_neg hlim, if_neg hloop, hresp]
    simp [Response.is_redirect, hru]
  | succ n ih =>
    intro j req hjn hru hm hstr
    rw [chain_step cfg u s k ha hs hinj hurl j req (by omega) (by omega) hru hm hstr]
    exact ih (j + 1) _ (by omega) rfl rfl rfl

theorem chain_err (cfg : RedirectConfig) (u : Nat → URL) (s k : Nat)
    (ha : cfg.allow_redirects = true)
    (hs : s = 301 ∨ s = 302 ∨ s = 303 ∨ s = 307 ∨ s = 308)
    (hinj : ∀ i, i ≤ k → ∀ i2, i2 ≤ k → i ≠ i2 → u i ≠ u i2)
    (hurl : ∀ i, i ≤ k → (u i).is_relative_url = false ∧ (u i).fragment = "")
    (hk : cfg.max_redirects < k) :
    ∀ (n j : Nat) (req : Request), j + n = cfg.max_redirects + 1 → j ≤ k →
      req.url = u j → req.method = "GET" → req.is_streaming = false →
      dispatch cfg (chainResponder u s k) (chainHist u s j) req =
        Except.error RedirectError.tooManyRedirects := by
  intro n
  induction n with
  | zero =>
    intro j req hjn hjle hru hm hstr
    have hlim : cfg.max_redirects < (chainHist u s j).length := by
      simp only [chainHist, List.length_map, List.length_range]
      omega
    rw [dispatch]
    simp [hlim]
  | succ n ih =>
    intro j req hjn hjle hru hm hstr
    rw [chain_step cfg u s k ha hs hinj hurl j req (by omega) (by omega) hru hm hstr]
    exact ih (j + 1) _ (by omega) (by omega) rfl rfl rfl

theorem looper_loop (cfg : RedirectConfig) (a b : URL) (s : Nat)
    (ha : cfg.allow_redirects = true)
    (hs : s = 301 ∨ s = 302 ∨ s = 303 ∨ s = 307 ∨ s = 308)
    (hab : a ≠ b)
    (hra : a.is_relative_url = false) (hrb : b.is_relative_url = false)
    (hfa : a.fragment = "") (hfb : b.fragment = "")
    (hmax : 2 ≤ cfg.max_redirects) :
    dispatch cfg (looperResponder a b s) [] (mkReq a) =
      Except.error RedirectError.redirectLoop := by
  have hR0 : looperResponder a b s (mkReq a) = ⟨s, [], some b⟩ := by
    simp [looperResponder, mkReq]
  have hred0 : (⟨s, [], some b, (mkReq a).url⟩ : Response).is_redirect = true :=
    is_redirect_of_code s [] b (mkReq a).url hs
  have hbuild0 := build_chain cfg (mkReq a) ⟨s, [], some b, (mkReq a).url⟩ b
    rfl rfl rfl hrb (by simp [mkReq, hfa])
  rw [dispatch]
  simp only [dif_neg (by simp : ¬ cfg.max_redirects < ([] : List Response).length),
    if_neg (by simp : ¬ (mkReq a).url ∈ ([] : List Response).map Response.url),
    hR0, hred0, hbuild0, ha, if_true]
  rw [if_neg (by simp)]
  set req1 : Request := ⟨"GET", b, redirect_headers (mkReq a) b, (mkReq a).content,
    false, cookiesUpdate cfg.cookies (mkReq a).cookies⟩ with hreq1
  have hba : ¬ (b = a) := fun h => hab h.symm
  have hR1 : looperResponder a b s req1 = ⟨s, [], some a⟩ := by
    rw [hreq1]
    simp [looperResponder, hba]
  have hred1 : (⟨s, [], some a, req1.url⟩ : Response).is_redirect = true :=
    is_redirect_of_code s [] a req1.url hs
  have hbuild1 := build_chain cfg req1 ⟨s, [], some a, req1.url⟩ a
    rfl rfl rfl hra (by rw [hreq1]; exact hfb)
  rw [dispatch]
  simp only [List.nil_append]
  rw [dif_neg (by simp; omega)]
  rw [if_neg (by simp [hreq1, mkReq]; exact fun h => hab h.symm)]
  simp only [hR1, hred1, hbuild1, ha, if_true]
  rw [if_neg (by simp)]
  rw [dispatch]
  rw [dif_neg (by simp; omega)]
  rw [if_pos (by simp [hreq1, mkReq])]

/-- Whichever status applies, the rewritten method is either the original
method or GET. -/
theorem redirect_method_cases (request : Request) (response : Response) :
    redirect_method request response = request.method ∨
      redirect_method request response = "GET" := by
  simp only [redirect_method]
  split_ifs <;> simp

/-- A normally returned result carrying a continuation resumes with the
engine history extended by exactly the returned response, and the
continuation request is the rewrite of that response. -/
theorem dispatch_next_state (cfg : RedirectConfig) (g : Responder) :
    ∀ (history : List Response) (request : Request) (res : DispatchResult)
      (req2 : Request) (hist2 : List Response),
    dispatch cfg g history request = Except.ok res →
    res.next = some (req2, hist2) →
    hist2 = res.history ++ [res.response] ∧
    ∃ r3, build_redirect_request cfg r3 res.response = Except.ok req2 := by
  intro history request
  induction history, request using dispatch.induct cfg g with
  | case1 hist req h1 =>
    intro res req2 hist2 heq hnext
    rw [dispatch] at heq
    simp [h1] at heq
  | case2 hist req h1 h2 =>
    intro res req2 hist2 heq hnext
    rw [dispatch] at heq
    simp [h1, h2] at heq
  | case3 hist req h1 h2 reply response hred =>
    intro res req2 hist2 heq hnext
    rw [dispatch] at heq
    simp only [h1, h2] at heq
    simp_all
    rw [← heq] at hnext
    simp at hnext
  | case4 hist req h1 h2 reply response hred e hb =>
    intro res req2 hist2 heq hnext
    rw [dispatch] at heq
    simp only [h1, h2] at heq
    simp_all
  | case5 hist req h1 h2 reply response hred nr hb ha ih =>
    intro res req2 hist2 heq hnext
    rw [dispatch] at heq
    simp only [h1, h2] at heq
    simp_all
    exact (ih res req2 hist2 rfl hnext).1
  | case6 hist req h1 h2 reply response hred nr hb ha =>
    intro res req2 hist2 heq hnext
    rw [dispatch] at heq
    simp only [h1, h2] at heq
    simp_all
    rw [← heq] at hnext
    simp at hnext
    obtain ⟨hr2, hh2⟩ := hnext
    subst hr2
    rw [← heq]
    refine ⟨by simp [hh2], ⟨req, ?_⟩⟩
    exact hb

/-! Theorems settling the claims. -/

/-- C5: the rewritten method is GET when the status is 303 and the original
method is not HEAD, GET when the status is 302 and the original method is
not HEAD, GET when the status is 301 and the original method is POST, and
otherwise the original method unchanged; in particular a HEAD request is
never rewritten. -/
theorem c5_redirect_method_rules (request : Request) (response : Response) :
    redirect_method request response =
      if response.status_code = 303 ∧ request.method ≠ "HEAD" then "GET"
      else if response.status_code = 302 ∧ request.method ≠ "HEAD" then "GET"
      else if response.status_code = 301 ∧ request.method = "POST" then "GET"
      else request.method := by
  simp only [redirect_method, codes.SEE_OTHER, codes.FOUND, codes.MOVED_PERMANENTLY]
  by_cases h3 : response.status_code = 303 <;> by_cases hH : request.method = "HEAD" <;>
    by_cases h2 : response.status_code = 302 <;> by_cases h1 : response.status_code = 301 <;>
    by_cases hP : request.method = "POST" <;> simp_all

/-- C6: the rewritten URL is the Location value, resolved against the
current request URL when relative, with the request fragment carried
forward exactly when the resolved URL has none; concretely, a GET of
https://example.org/relative_redirect#fragment answered by a 303 to /
ends at https://example.org/#fragment with history of length one. -/
theorem c6_redirect_url_rules :
    (∀ (request : Request) (st : Nat) (hd : List (String × String))
      (loc u0 : URL),
      redirect_url request ⟨st, hd, some loc, u0⟩ =
        if loc.is_relative_url then
          ⟨request.url.scheme, request.url.host, request.url.port, loc.path,
            loc.query,
            if loc.fragment = "" then request.url.fragment else loc.fragment⟩
        else
          { loc with fragment :=
              if loc.fragment = "" then request.url.fragment else loc.fragment }) ∧
    dispatch ⟨true, 20, []⟩ fragResponder [] fragReq =
      Except.ok ⟨⟨200, [], none, ⟨"https", "example.org", 443, "/", "", "fragment"⟩⟩,
        [⟨303, [], some relRoot, fragUrl⟩], none⟩ := by
  constructor
  · intro request st hd loc u0
    obtain ⟨ls, lh, lp, lpath, lq, lf⟩ := loc
    by_cases hrel : (⟨ls, lh, lp, lpath, lq, lf⟩ : URL).is_relative_url
    · by_cases hlf : lf = "" <;> by_cases hrf : request.url.fragment = "" <;>
        simp_all [redirect_url, URL.join, URL.copy_with_fragment]
    · by_cases hlf : lf = "" <;> by_cases hrf : request.url.fragment = "" <;>
        simp_all [redirect_url, URL.join, URL.copy_with_fragment]
  · rw [dispatch]
    simp [fragResponder, fragReq, fragUrl, relRoot, Response.is_redirect,
      build_redirect_request, redirect_method, redirect_url, redirect_headers,
      redirect_content, cookiesUpdate, URL.join, URL.is_relative_url,
      URL.copy_with_fragment, headersDelete, URL.origin, lowerName, String.reduceEq]
    rw [dispatch]
    simp [fragResponder, fragReq, fragUrl, relRoot, Response.is_redirect,
      build_redirect_request, redirect_method, redirect_url, redirect_headers,
      redirect_content, cookiesUpdate, URL.join, URL.is_relative_url,
      URL.copy_with_fragment, headersDelete, URL.origin, lowerName, String.reduceEq]

/-- C7: the rewritten headers are a copy of the request headers; on a
cross-origin target exactly the entries named Authorization or Host
(case-insensitively) are removed and every other entry is kept in order;
on a same-origin target the headers are preserved verbatim. -/
theorem c7_redirect_headers_rules (request : Request) (url : URL) :
    redirect_headers request url =
      if url.origin ≠ request.url.origin then
        request.headers.filter (fun kv =>
          lowerName kv.1 ≠ "authorization" ∧ lowerName kv.1 ≠ "host")
      else request.headers := by
  by_cases h : url.origin = request.url.origin
  · simp [redirect_headers, h]
  · simp only [redirect_headers, if_neg (by simpa using h),
      if_pos (by simpa using h), headersDelete]
    rw [List.filter_filter]
    apply List.filter_congr
    intro kv _
    show (decide (lowerName kv.1 ≠ lowerName "host")
        && decide (lowerName kv.1 ≠ lowerName "Authorization"))
      = decide (lowerName kv.1 ≠ "authorization" ∧ lowerName kv.1 ≠ "host")
    have h1 : lowerName "host" = "host" := by decide
    have h2 : lowerName "Authorization" = "authorization" := by decide
    rw [h1, h2]
    by_cases ha : lowerName kv.1 = "authorization" <;>
      by_cases hh : lowerName kv.1 = "host" <;> simp [ha, hh]

/-- C8: the rewritten body is empty exactly when the rewrite rules changed
the method (which always means a change to GET); otherwise a one-shot
streamed body raises the body-unavailable error and a materialized body is
carried forward unchanged. -/
theorem c8_redirect_content_rules (request : Request) (response : Response) :
    redirect_content request (redirect_method request response) =
      if redirect_method request response ≠ request.method then Except.ok ""
      else if request.is_streaming then
        Except.error RedirectError.redirectBodyUnavailable
      else Except.ok request.content := by
  by_cases hne : redirect_method request response = request.method
  · simp [redirect_content, hne]
  · have hget : redirect_method request response = "GET" := by
      rcases redirect_method_cases request response with h | h
      · exact absurd h hne
      · exact h
    simp [redirect_content, hne, hget]

/-- C9 counterexample: two request-start events for the same stream id
yield a reachable state holding two incomplete exchange records under that
id, with nothing dispatched and no failure, so the table does not keep at
most one incomplete record per stream id and reuse is not rejected. -/
theorem c9_counterexample :
    ∃ s : ServerState,
      runEvents [H2Event.requestReceived [] 1, H2Event.requestReceived [] 1]
        ServerState.init = some s ∧
      s.requests 1 = some [⟨[], ""⟩, ⟨[], ""⟩] ∧
      s.dispatched = [] :=
  ⟨_, rfl, rfl, rfl⟩

/-- C9 as amended: the correlation table keeps a queue of exchange records
per stream id; request-start appends a fresh record (so several incomplete
records may coexist under one id), data frames extend the newest record
and fail for an unknown id, and stream-completion removes exactly the
oldest record, dispatching it to the application exactly once; entries for
other stream ids are never touched. -/
theorem c9_queue_per_stream (s : ServerState) (sid : Nat)
    (hs : List (String × String)) (d : String) :
    ((request_received hs sid s).requests sid =
      some (((s.requests sid).getD []) ++ [⟨hs, ""⟩])) ∧
    (∀ sid2, sid2 ≠ sid →
      (request_received hs sid s).requests sid2 = s.requests sid2) ∧
    ((request_received hs sid s).dispatched = s.dispatched) ∧
    (s.requests sid = none → receive_data d sid s = none) ∧
    (∀ r rest, s.requests sid = some (r :: rest) →
      receive_data d sid s =
        some (setStream s sid (appendToLast (r :: rest) d))) ∧
    (s.requests sid = none → stream_complete sid s = none) ∧
    (∀ r rest, s.requests sid = some (r :: rest) →
      ∃ s2, stream_complete sid s = some s2 ∧
        s2.dispatched = s.dispatched ++ [(sid, r)] ∧
        s2.requests sid = (if rest.isEmpty then none else some rest) ∧
        ∀ sid2, sid2 ≠ sid → s2.requests sid2 = s.requests sid2) := by
  refine ⟨?_, ?_, ?_, ?_, ?_, ?_, ?_⟩
  · cases h : s.requests sid with
    | none => simp [request_received, h, setStream]
    | some l => simp [request_received, h, setStream]
  · intro sid2 hne
    cases h : s.requests sid with
    | none => simp [request_received, h, setStream, hne]
    | some l => simp [request_received, h, setStream, hne]
  · cases h : s.requests sid with
    | none => simp [request_received, h, setStream]
    | some l => simp [request_received, h, setStream]
  · intro h
    simp [receive_data, h]
  · intro r rest h
    simp [receive_data, h]
  · intro h
    simp [stream_complete, h]
  · intro r rest h
    cases rest with
    | nil =>
      have hsc : stream_complete sid s =
          some ⟨(removeStream s sid).requests, s.dispatched ++ [(sid, r)]⟩ := by
        simp [stream_complete, h, removeStream]
      refine ⟨_, hsc, rfl, by simp [removeStream], ?_⟩
      intro sid2 hne
      simp [removeStream, hne]
    | cons b l =>
      have hsc : stream_complete sid s =
          some ⟨(setStream s sid (b :: l)).requests, s.dispatched ++ [(sid, r)]⟩ := by
        simp [stream_complete, h, setStream]
      refine ⟨_, hsc, rfl, by simp [setStream], ?_⟩
      intro sid2 hne
      simp [setStream, hne]

/-- C9 witness: the amended behavior applied at concrete states. -/
theorem c9_queue_per_stream_witness :
    (request_received [] 1 ServerState.init).requests 1 =
      some (((ServerState.init.requests 1).getD []) ++ [⟨[], ""⟩]) ∧
    stream_complete 2 ServerState.init = none :=
  ⟨(c9_queue_per_stream ServerState.init 1 [] "").1,
    (c9_queue_per_stream ServerState.init 2 [] "").2.2.2.2.2.1 rfl⟩

/-- C1: every response the redirect engine returns normally carries as
history the engine history at entry plus all responses received during the
call except the returned one, oldest first (so its length is the number of
hops taken to reach it and its first element is the first response
received); in particular an eager chain of k same-status redirect hops
with k at most max_redirects ends in a 200 whose history is exactly the k
redirect responses in hop order. -/
theorem c1_history_snapshot_and_chain :
    (∀ (cfg : RedirectConfig) (g : Responder) (history : List Response)
      (request : Request) (res : DispatchResult) (tr : List (Request × Response)),
      dispatchT cfg g history request = (Except.ok res, tr) →
      res.history = history ++ (tr.map Prod.snd).dropLast ∧
      (tr.map Prod.snd).getLast? = some res.response) ∧
    (∀ (cfg : RedirectConfig) (u : Nat → URL) (s k : Nat),
      cfg.allow_redirects = true →
      (s = 301 ∨ s = 302 ∨ s = 303 ∨ s = 307 ∨ s = 308) →
      (∀ i, i ≤ k → ∀ i2, i2 ≤ k → i ≠ i2 → u i ≠ u i2) →
      (∀ i, i ≤ k → (u i).is_relative_url = false ∧ (u i).fragment = "") →
      k ≤ cfg.max_redirects →
      dispatch cfg (chainResponder u s k) [] (mkReq (u 0)) =
        Except.ok ⟨⟨200, [], none, u k⟩, (List.range k).map (chainResp u s), none⟩ ∧
      ((List.range k).map (chainResp u s)).length = k) := by
  constructor
  · exact fun cfg g => dispatchT_ok_history cfg g
  · intro cfg u s k ha hs hinj hurl hk
    refine ⟨?_, by simp⟩
    exact chain_ok cfg u s k ha hs hinj hurl hk k 0 (mkReq (u 0)) (by omega) rfl rfl rfl

/-- C1 witness: the snapshot equation at a one-response run, and the chain
conclusion at a concrete two-hop chain. -/
theorem c1_witness :
    ((⟨⟨200, [], none, uA⟩, [], none⟩ : DispatchResult).history =
        [] ++ (([(mkReq uA, (⟨200, [], none, uA⟩ : Response))].map Prod.snd)).dropLast ∧
      ([(mkReq uA, (⟨200, [], none, uA⟩ : Response))].map Prod.snd).getLast? =
        some (⟨⟨200, [], none, uA⟩, [], none⟩ : DispatchResult).response) ∧
    (dispatch ⟨true, 20, []⟩ (chainResponder uW 303 2) [] (mkReq (uW 0)) =
        Except.ok ⟨⟨200, [], none, uW 2⟩, (List.range 2).map (chainResp uW 303), none⟩ ∧
      ((List.range 2).map (chainResp uW 303)).length = 2) := by
  constructor
  · exact c1_history_snapshot_and_chain.1 ⟨true, 0, []⟩ gOK [] (mkReq uA) _ _
      (by rw [dispatchT]; simp [gOK, mkReq, Response.is_redirect])
  · exact c1_history_snapshot_and_chain.2 ⟨true, 20, []⟩ uW 303 2 rfl (by decide)
      (by decide) (by decide) (by decide)

/-- C2: in lazy mode the engine returns each redirect response with a
continuation that resumes dispatch with the rewritten request and the
engine history extended by exactly the returned response; driving the
continuation hop by hop long enough produces exactly the result (terminal
response or error) of a single eager call from the same state. -/
theorem c2_lazy_continuation :
    (∀ (cfg : RedirectConfig) (g : Responder) (fuel : Nat)
      (history : List Response) (request : Request),
      cfg.max_redirects + 2 ≤ fuel + history.length →
      driveLazy { cfg with allow_redirects := false } g fuel
        (dispatch { cfg with allow_redirects := false } g history request) =
      dispatch { cfg with allow_redirects := true } g history request) ∧
    (∀ (cfg : RedirectConfig) (g : Responder) (history : List Response)
      (request : Request) (res : DispatchResult) (req2 : Request)
      (hist2 : List Response),
      dispatch cfg g history request = Except.ok res →
      res.next = some (req2, hist2) →
      hist2 = res.history ++ [res.response] ∧
      ∃ r3, build_redirect_request cfg r3 res.response = Except.ok req2) :=
  ⟨fun cfg g fuel hist req h => driveLazy_eq_eager cfg g fuel hist req h,
    fun cfg g hist req res req2 hist2 h1 h2 =>
      dispatch_next_state cfg g hist req res req2 hist2 h1 h2⟩

/-- C2 witness: equivalence on a concrete two-hop chain, and the
continuation state equation at a concrete lazy hop. -/
theorem c2_witness :
    (driveLazy ⟨false, 20, []⟩ (chainResponder uW 303 2) 22
        (dispatch ⟨false, 20, []⟩ (chainResponder uW 303 2) [] (mkReq (uW 0))) =
      dispatch ⟨true, 20, []⟩ (chainResponder uW 303 2) [] (mkReq (uW 0))) ∧
    ([(⟨303, [], some uB, uA⟩ : Response)] =
        ([] : List Response) ++ [⟨303, [], some uB, uA⟩] ∧
      ∃ r3, build_redirect_request ⟨false, 20, []⟩ r3 ⟨303, [], some uB, uA⟩ =
        Except.ok ⟨"GET", uB, [], "", false, []⟩) := by
  constructor
  · exact c2_lazy_continuation.1 ⟨true, 20, []⟩ (chainResponder uW 303 2) 22 []
      (mkReq (uW 0)) (by simp)
  · exact c2_lazy_continuation.2 ⟨false, 20, []⟩ gNext [] (mkReq uA)
      ⟨⟨303, [], some uB, uA⟩, [],
        some (⟨"GET", uB, [], "", false, []⟩, [⟨303, [], some uB, uA⟩])⟩
      ⟨"GET", uB, [], "", false, []⟩ [⟨303, [], some uB, uA⟩]
      (by
        rw [dispatch]
        simp [gNext, mkReq, Response.is_redirect, build_redirect_request,
          redirect_method, redirect_url, redirect_headers, redirect_content,
          cookiesUpdate, uA, uB, URL.is_relative_url, URL.origin,
          String.reduceEq, headersDelete, lowerName])
      rfl

/-- C3: a chain of k same-status redirect hops with k exceeding
max_redirects fails with the too-many-redirects error, both when followed
eagerly and when driven through the lazy continuation. -/
theorem c3_chain_exceeds_limit :
    ∀ (cfg : RedirectConfig) (u : Nat → URL) (s k : Nat),
    (s = 301 ∨ s = 302 ∨ s = 303 ∨ s = 307 ∨ s = 308) →
    (∀ i, i ≤ k → ∀ i2, i2 ≤ k → i ≠ i2 → u i ≠ u i2) →
    (∀ i, i ≤ k → (u i).is_relative_url = false ∧ (u i).fragment = "") →
    cfg.max_redirects < k →
    dispatch { cfg with allow_redirects := true } (chainResponder u s k) []
      (mkReq (u 0)) = Except.error RedirectError.tooManyRedirects ∧
    (∀ fuel, cfg.max_redirects + 2 ≤ fuel →
      driveLazy { cfg with allow_redirects := false } (chainResponder u s k) fuel
        (dispatch { cfg with allow_redirects := false } (chainResponder u s k) []
          (mkReq (u 0))) = Except.error RedirectError.tooManyRedirects) := by
  intro cfg u s k hs hinj hurl hk
  have heager : dispatch { cfg with allow_redirects := true } (chainResponder u s k)
      [] (mkReq (u 0)) = Except.error RedirectError.tooManyRedirects :=
    chain_err { cfg with allow_redirects := true } u s k rfl hs hinj hurl
      (by simpa using hk) (cfg.max_redirects + 1) 0 (mkReq (u 0))
      (by simp) (by omega) rfl rfl rfl
  refine ⟨heager, fun fuel hf => ?_⟩
  rw [driveLazy_eq_eager cfg (chainResponder u s k) fuel [] (mkReq (u 0))
    (by simpa using hf)]
  exact heager

/-- C3 witness: a three-hop chain against a ceiling of two, eager and
lazily driven. -/
theorem c3_witness :
    dispatch ⟨true, 2, []⟩ (chainResponder uW 303 3) [] (mkReq (uW 0)) =
      Except.error RedirectError.tooManyRedirects ∧
    driveLazy ⟨false, 2, []⟩ (chainResponder uW 303 3) 4
        (dispatch ⟨false, 2, []⟩ (chainResponder uW 303 3) [] (mkReq (uW 0))) =
      Except.error RedirectError.tooManyRedirects := by
  have h := c3_chain_exceeds_limit ⟨true, 2, []⟩ uW 303 3 (by decide) (by decide)
    (by decide) (by decide)
  exact ⟨h.1, h.2 4 (by decide)⟩

/-- C4: two distinct URLs redirecting to each other fail with the
redirect-loop error on the third hop, which revisits the first URL: a URL
that is in the history but is not the immediately preceding one, so the
check is membership over all visited URLs; the error is raised in both
eager and lazy-continuation modes. -/
theorem c4_loop_detection :
    ∀ (cfg : RedirectConfig) (a b : URL) (s : Nat),
    (s = 301 ∨ s = 302 ∨ s = 303 ∨ s = 307 ∨ s = 308) → a ≠ b →
    a.is_relative_url = false → b.is_relative_url = false →
    a.fragment = "" → b.fragment = "" → 2 ≤ cfg.max_redirects →
    dispatch { cfg with allow_redirects := true } (looperResponder a b s) []
      (mkReq a) = Except.error RedirectError.redirectLoop ∧
    (∀ fuel, cfg.max_redirects + 2 ≤ fuel →
      driveLazy { cfg with allow_redirects := false } (looperResponder a b s) fuel
        (dispatch { cfg with allow_redirects := false } (looperResponder a b s) []
          (mkReq a)) = Except.error RedirectError.redirectLoop) := by
  intro cfg a b s hs hab hra hrb hfa hfb hmax
  have heager := looper_loop { cfg with allow_redirects := true } a b s rfl hs hab
    hra hrb hfa hfb (by simpa using hmax)
  refine ⟨heager, fun fuel hf => ?_⟩
  rw [driveLazy_eq_eager cfg (looperResponder a b s) fuel [] (mkReq a)
    (by simpa using hf)]
  exact heager

/-- C4 witness: the loop error on concrete URLs /a and /b, eager and
lazily driven. -/
theorem c4_witness :
    dispatch ⟨true, 20, []⟩ (looperResponder uA uB 303) [] (mkReq uA) =
      Except.error RedirectError.redirectLoop ∧
    driveLazy ⟨false, 20, []⟩ (looperResponder uA uB 303) 22
        (dispatch ⟨false, 20, []⟩ (looperResponder uA uB 303) [] (mkReq uA)) =
      Except.error RedirectError.redirectLoop := by
  have h := c4_loop_detection ⟨true, 20, []⟩ uA uB 303 (by decide) (by decide)
    rfl rfl rfl rfl (by decide)
  exact ⟨h.1, h.2 22 (by decide)⟩

/-- C10: on every hop (each dispatch call, including calls made by the
lazy continuation), both guards are evaluated at the start of dispatch:
when either fires, the call returns the corresponding error with an empty
responder trace, so get_response is never invoked for that hop. -/
theorem c10_guards_before_responder (cfg : RedirectConfig) (g : Responder)
    (history : List Response) (request : Request) :
    (cfg.max_redirects < history.length →
      dispatchT cfg g history request =
        (Except.error RedirectError.tooManyRedirects, [])) ∧
    (¬ cfg.max_redirects < history.length →
      request.url ∈ history.map Response.url →
      dispatchT cfg g history request =
        (Except.error RedirectError.redirectLoop, [])) :=
  ⟨fun h => dispatchT_guard_limit cfg g history request h,
    fun h1 h2 => dispatchT_guard_loop cfg g history request h1 h2⟩

/-- C10 witness: both guards at concrete states where they fire. -/
theorem c10_witness :
    dispatchT ⟨true, 0, []⟩ gOK [⟨200, [], none, uA⟩] (mkReq uA) =
      (Except.error RedirectError.tooManyRedirects, []) ∧
    dispatchT ⟨true, 5, []⟩ gOK [⟨200, [], none, uA⟩] (mkReq uA) =
      (Except.error RedirectError.redirectLoop, []) :=
  ⟨(c10_guards_before_responder ⟨true, 0, []⟩ gOK [⟨200, [], none, uA⟩]
      (mkReq uA)).1 (by decide),
    (c10_guards_before_responder ⟨true, 5, []⟩ gOK [⟨200, [], none, uA⟩]
      (mkReq uA)).2 (by decide) (by simp [mkReq])⟩

end Httpx
